import Mathlib

/-!
Verification of the European public data pipeline.

Shallow embedding of the three non-trivial components of the repository:

* the JSON-stat transformer (`src/ingestion/process_hicp_silver.py`),
* the quality-rule engine (`src/quality/check_hicp_quality.py`),
* the SQL loader (`src/db/load_hicp_to_sql.py`).

Calendar dates are triples of naturals, numeric cell values are rationals,
and Python code that may raise is embedded in `Except`.  External library
calls (pandas parsing, `date_range`) are modelled by explicitly documented
definitions; everything else follows the Python source line by line.
-/

namespace Pipeline

/-- A calendar date as pandas timestamps expose it: year, month, day. -/
structure Date where
  y : Nat
  m : Nat
  d : Nat
deriving DecidableEq, Repr

/-- Months range over `1..12` and days start at `1`. -/
def validDate (a : Date) : Prop := 1 ≤ a.m ∧ a.m ≤ 12 ∧ 1 ≤ a.d

instance (a : Date) : Decidable (validDate a) := by
  unfold validDate; infer_instance

/-- Linear month index, used to reason about runs of consecutive months. -/
def monthIdx (a : Date) : Nat := a.y * 12 + (a.m - 1)

/-- First day of the month whose linear index is `i`. -/
def monthStart (i : Nat) : Date := ⟨i / 12, i % 12 + 1, 1⟩

/-- Lexicographic order on dates, the order pandas timestamps sort in. -/
def dateLe (a b : Date) : Bool :=
  decide (a.y < b.y ∨ (a.y = b.y ∧ (a.m < b.m ∨ (a.m = b.m ∧ a.d ≤ b.d))))

/-- Structural effectful map over `Except`, mirroring a Python loop in which
each iteration may raise. -/
def mapE (f : α → Except ε β) : List α → Except ε (List β)
  | [] => .ok []
  | a :: as => do
    let b ← f a
    let bs ← mapE f as
    pure (b :: bs)

/-- Stable insertion into a sorted list. -/
def insertSorted (le : α → α → Bool) (a : α) : List α → List α
  | [] => [a]
  | b :: bs => if le a b then a :: b :: bs else b :: insertSorted le a bs

/-- Stable sort; models Python `sorted` and pandas `sort_values`. -/
def sortRows (le : α → α → Bool) : List α → List α
  | [] => []
  | a :: as => insertSorted le a (sortRows le as)

/-- `itertools.product`, the rightmost factor varying fastest. -/
def cartProd : List (List α) → List (List α)
  | [] => [[]]
  | l :: ls => (l.map (fun x => (cartProd ls).map (fun r => x :: r))).flatten

/-- One cell of the tidy table: a category code, a parsed time
(`none` = NaT), or a numeric value (`none` = missing). -/
inductive Cell
  | str (s : String)
  | date (t : Option Date)
  | num (q : Option ℚ)
deriving DecidableEq, Repr

/-- `dimension.<d>.category.index`: absent, a code-to-position mapping, a
plain ordered list, or some unsupported JSON value. -/
inductive CatIndex
  | absent
  | dict (m : List (String × Nat))
  | list (cs : List String)
  | unsupported
deriving DecidableEq, Repr

/-- The JSON-stat `value` field: a dense list, a sparse mapping keyed by
flat-index strings, or an unsupported (non-sized) JSON value. -/
inductive JVal
  | list (vs : List (Option ℚ))
  | dict (m : List (String × ℚ))
  | other
deriving DecidableEq, Repr

/-- The exceptions the transformer can raise. -/
inductive Err
  | malformedPayload (keys : List String)
  | keyError (k : String)
  | unsupportedIndexType
  | valueLengthMismatch (got expected : Nat)
  | indexError
  | unsupportedValueType
  | valueError (msg : String)
  | noLen
deriving DecidableEq, Repr

/-- A JSON-stat payload restricted to the keys the transformer reads.  An
`Option` field is `none` exactly when the key is absent from the JSON
object. -/
structure Payload where
  dimension : Option (List (String × CatIndex))
  id : Option (List String)
  size : Option (List Nat)
  value : Option JVal

/-- Python dict read `payload[k]`: `KeyError` when the key is absent. -/
def optGet (o : Option α) (k : String) : Except Err α :=
  o.elim (.error (.keyError k)) .ok

/-- The keys present on a payload, for the malformed-payload message. -/
def payloadKeys (p : Payload) : List String :=
  (if p.dimension.isSome then ["dimension"] else []) ++
  (if p.id.isSome then ["id"] else []) ++
  (if p.size.isSome then ["size"] else []) ++
  (if p.value.isSome then ["value"] else [])

/-- `_ordered_category_codes`: dict indexes are sorted by position (stably,
like Python `sorted`), list indexes are used as written, anything else is a
fatal `TypeError`. -/
def ordered_category_codes : CatIndex → Except Err (List String)
  | .absent => .ok []
  | .dict m => .ok ((sortRows (fun a b => decide (a.2 ≤ b.2)) m).map (fun kv => kv.1))
  | .list cs => .ok cs
  | .unsupported => .error .unsupportedIndexType

/-- Model of the external `pd.Timestamp(y, m, 1)` domain: nanosecond
timestamps only exist between 1677-09-21 and 2262-04-11, so a month start is
representable iff the month is in `1..12` and the year-month falls in that
window. -/
def pdTimestampOk (y m : Nat) : Bool :=
  decide (1 ≤ m ∧ m ≤ 12 ∧
    ((y = 1677 ∧ 10 ≤ m) ∨ (1678 ≤ y ∧ y ≤ 2261) ∨ (y = 2262 ∧ m ≤ 4)))

/-- Numeric value of a decimal digit string (most significant first). -/
def digitsToNat (cs : List Char) : Nat :=
  cs.foldl (fun n c => n * 10 + (c.toNat - 48)) 0

/-- `re.match(r"^(\d{4})M(\d{2})$", s)`, returning the year and month
groups. -/
def matchYYYYMmm (s : String) : Option (Nat × Nat) :=
  match s.data with
  | [a, b, c, d, e, f, g] =>
    if a.isDigit ∧ b.isDigit ∧ c.isDigit ∧ d.isDigit ∧ e = 'M' ∧ f.isDigit ∧ g.isDigit then
      some (digitsToNat [a, b, c, d], digitsToNat [f, g])
    else none
  | _ => none

/-- Split a character list on `-` separators. -/
def splitDash : List Char → List (List Char)
  | [] => [[]]
  | c :: rest =>
    match splitDash rest with
    | [] => [[]]
    | g :: gs => if c = '-' then [] :: g :: gs else (c :: g) :: gs

/-- A nonempty all-digit group as its value and its digit count. -/
def parseGroup (cs : List Char) : Option (Nat × Nat) :=
  if cs ≠ [] ∧ cs.all Char.isDigit then some (digitsToNat cs, cs.length) else none

/-- Days in a calendar month (Gregorian). -/
def daysInMonth (y m : Nat) : Nat :=
  if m = 2 then (if y % 4 = 0 ∧ (y % 100 ≠ 0 ∨ y % 400 = 0) then 29 else 28)
  else if m = 4 ∨ m = 6 ∨ m = 9 ∨ m = 11 then 30
  else 31

/-- Model of the external `pd.to_datetime(s, errors="coerce")` fallback,
restricted to ISO-style `YYYY`, `YYYY-MM` and `YYYY-MM-DD` inputs; every
other input, and every out-of-range or out-of-bounds component, coerces to
NaT (`none`), which is exactly what `errors="coerce"` produces. -/
def pdToDatetime (s : String) : Option Date :=
  match (splitDash s.data).map parseGroup with
  | [some (y, 4)] => if pdTimestampOk y 1 then some ⟨y, 1, 1⟩ else none
  | [some (y, 4), some (m, 2)] => if pdTimestampOk y m then some ⟨y, m, 1⟩ else none
  | [some (y, 4), some (m, 2), some (d, 2)] =>
    if pdTimestampOk y m ∧ 1 ≤ d ∧ d ≤ daysInMonth y m then some ⟨y, m, d⟩ else none
  | _ => none

/-- `_parse_time_code`: `None` stays null; a `YYYYMmm` match builds the
first-of-month timestamp — and, exactly like `pd.Timestamp`, raises on an
out-of-range month or an out-of-bounds year; otherwise general parsing with
coercion to null, normalised to the first of the month. -/
def parse_time_code (t : Option String) : Except Err (Option Date) :=
  match t with
  | none => .ok none
  | some s =>
    match matchYYYYMmm s with
    | some (y, m) =>
      if m < 1 ∨ 12 < m then .error (.valueError "month must be in 1..12")
      else if pdTimestampOk y m then .ok (some ⟨y, m, 1⟩)
      else .error (.valueError "Out of bounds nanosecond timestamp")
    | none =>
      match pdToDatetime s with
      | none => .ok none
      | some ts => .ok (some (if ts.d = 1 then ts else ⟨ts.y, ts.m, 1⟩))

/-- Read flat value `i`: dense lists are indexed directly (an out-of-range
index is Python `IndexError`), sparse dicts are looked up by the stringified
index with `None` as the default for an absent key. -/
def getValue : JVal → Nat → Except Err (Option ℚ)
  | .list vs, i =>
    match vs[i]? with
    | some v => .ok v
    | none => .error .indexError
  | .dict m, i => .ok (m.lookup (toString i))
  | .other, _ => .error .unsupportedValueType

/-- Python dict assignment `r[k] = v`: overwrite in place, or append. -/
def dictSet (r : List (String × Cell)) (k : String) (v : Cell) : List (String × Cell) :=
  if r.any (fun kc => kc.1 == k) then
    r.map (fun kc => if kc.1 == k then (k, v) else kc)
  else r ++ [(k, v)]

/-- Python dict read `r[k]` (total here: the transformer only reads keys it
has written). -/
def getCell (r : List (String × Cell)) (k : String) : Cell :=
  match r.find? (fun kc => kc.1 == k) with
  | some kv => kv.2
  | none => Cell.num none

/-- One row of the enumeration:
`{dim_order[j]: combo[j] for j} | {"value": v}` as an insertion-ordered
dict. -/
def mkRow (dimOrder combo : List String) (v : Option ℚ) : List (String × Cell) :=
  dictSet ((dimOrder.zip combo).foldl (fun r kc => dictSet r kc.1 (.str kc.2)) [])
    "value" (.num v)

/-- `for i, combo in enumerate(product(*codes_by_dim))`, starting at flat
index `i`. -/
def buildRowsAux (dimOrder : List String) (values : JVal) :
    Nat → List (List String) → Except Err (List (List (String × Cell)))
  | _, [] => .ok []
  | i, combo :: rest => do
    let v ← getValue values i
    let rs ← buildRowsAux dimOrder values (i + 1) rest
    pure (mkRow dimOrder combo v :: rs)

def buildRows (dimOrder : List String) (codesByDim : List (List String))
    (values : JVal) : Except Err (List (List (String × Cell))) :=
  buildRowsAux dimOrder values 0 (cartProd codesByDim)

/-- `df["time"].map(_parse_time_code)` on one cell: a code string becomes a
parsed timestamp. -/
def parseTimeCell : Cell → Except Err Cell
  | .str s => (parse_time_code (some s)).map .date
  | c => .ok c

/-- The time-column map applied rowwise: only `time` entries change. -/
def parseTimeRow (r : List (String × Cell)) : Except Err (List (String × Cell)) :=
  mapE (fun kc =>
    if kc.1 == "time" then (parseTimeCell kc.2).map (fun c => ("time", c))
    else .ok kc) r

/-- Python `len(values)`: list length or dict key count; other JSON scalars
have no `len` and raise `TypeError` before any further processing. -/
def jvalLen : JVal → Except Err Nat
  | .list vs => .ok vs.length
  | .dict m => .ok m.length
  | .other => .error .noLen

/-- The tidy output table: its column order and its rows, each row an assoc
list over exactly those columns. -/
structure DataFrame where
  cols : List String
  rows : List (List (String × Cell))
deriving DecidableEq, Repr

/-- The canonical output column order. -/
def canonicalCols : List String := ["time", "geo", "coicop", "unit", "value"]

/-- The sort key of the output table. -/
def sortKeyCols : List String := ["geo", "coicop", "time"]

/-- Ascending comparison with NaT/NaN last, as `sort_values` orders cells. -/
def cellLe : Cell → Cell → Bool
  | .str a, .str b => decide (a ≤ b)
  | .date (some a), .date (some b) => dateLe a b
  | .date _, .date none => true
  | .date none, .date (some _) => false
  | .num (some a), .num (some b) => decide (a ≤ b)
  | .num _, .num none => true
  | .num none, .num (some _) => false
  | _, _ => false

/-- Lexicographic multi-column comparison for `sort_values`. -/
def rowLe (keys : List String) (r1 r2 : List (String × Cell)) : Bool :=
  match keys with
  | [] => true
  | c :: rest =>
    let a := getCell r1 c
    let b := getCell r2 c
    if a = b then rowLe rest r1 r2 else cellLe a b

/-- `_ordered_category_codes(dim[d])`: the dict read raises `KeyError` on an
undeclared dimension name. -/
def lookupCodes (dim : List (String × CatIndex)) (d : String) :
    Except Err (List String) :=
  match dim.lookup d with
  | some dobj => ordered_category_codes dobj
  | none => .error (.keyError d)

/-- `jsonstat_to_dataframe`: decode a JSON-stat 2.0 cube into the tidy
sorted table.  Mirrors the source line by line: the malformed-payload guard
checks only `dimension` and `value`; `id`, `size` and each `dimension[d]`
are read unguarded; the flat length check precedes row building; the time
column is parsed, columns are restricted and reordered, and rows are sorted
by the present keys among (geo, coicop, time). -/
def jsonstat_to_dataframe (payload : Payload) : Except Err DataFrame :=
  if payload.dimension.isSome ∧ payload.value.isSome then do
    let dim ← optGet payload.dimension "dimension"
    let dimOrder ← optGet payload.id "id"
    let sizes ← optGet payload.size "size"
    let values ← optGet payload.value "value"
    let codesByDim ← mapE (lookupCodes dim) dimOrder
    let actualLen ← jvalLen values
    let expectedLen := sizes.foldl (fun a s => a * s) 1
    if actualLen ≠ expectedLen then
      .error (.valueLengthMismatch actualLen expectedLen)
    else do
      let raw ← buildRows dimOrder codesByDim values
      let rows ← mapE parseTimeRow raw
      let cols := if rows.isEmpty then ([] : List String) else dimOrder ++ ["value"]
      let orderedCols := canonicalCols.filter (fun c => cols.contains c)
      let sortCols := sortKeyCols.filter (fun c => cols.contains c)
      let selected := rows.map (fun r => orderedCols.map (fun c => (c, getCell r c)))
      pure ⟨orderedCols, sortRows (rowLe sortCols) selected⟩
  else .error (.malformedPayload (payloadKeys payload))

/-! ## Validator (`src/quality/check_hicp_quality.py`) -/

/-- One observation row of the processed table. -/
structure ObsRow where
  time : Option Date
  geo : Option String
  coicop : Option String
  unit : Option String
  value : Option ℚ
deriving DecidableEq, Repr

/-- The processed table as the quality checker sees it: the five canonical
columns, each possibly absent, over a common list of rows.  (Provenance
columns are never read by any rule.) -/
structure DF where
  rows : List ObsRow
  hasTime : Bool
  hasGeo : Bool
  hasCoicop : Bool
  hasUnit : Bool
  hasValue : Bool
deriving DecidableEq, Repr

/-- `c in df.columns` for the five canonical columns. -/
def DF.hasCol (df : DF) (c : String) : Bool :=
  if c == "time" then df.hasTime
  else if c == "geo" then df.hasGeo
  else if c == "coicop" then df.hasCoicop
  else if c == "unit" then df.hasUnit
  else if c == "value" then df.hasValue
  else false

/-- `df[c].isna().sum()` for a canonical column. -/
def DF.nullCount (df : DF) (c : String) : Nat :=
  if c == "time" then df.rows.countP (fun r => r.time.isNone)
  else if c == "geo" then df.rows.countP (fun r => r.geo.isNone)
  else if c == "coicop" then df.rows.countP (fun r => r.coicop.isNone)
  else if c == "unit" then df.rows.countP (fun r => r.unit.isNone)
  else if c == "value" then df.rows.countP (fun r => r.value.isNone)
  else 0

/-- A key cell of the duplicate check; pandas `duplicated` treats nulls as
equal, which `Option` equality gives for free. -/
inductive KeyCell
  | time (t : Option Date)
  | geo (g : Option String)
  | coicop (c : Option String)
  | unit (u : Option String)
deriving DecidableEq, Repr

def ObsRow.keyCell (r : ObsRow) (c : String) : KeyCell :=
  if c == "time" then .time r.time
  else if c == "geo" then .geo r.geo
  else if c == "coicop" then .coicop r.coicop
  else .unit r.unit

/-- The per-row key restricted to the present key columns. -/
def rowKey (keyCols : List String) (r : ObsRow) : List KeyCell :=
  keyCols.map (fun c => r.keyCell c)

/-- `pd.date_range(_, _, freq="MS")` as a recursion: `n` consecutive month
starts beginning at linear month index `lo`. -/
def monthStartsFromTo (lo : Nat) : Nat → List Date
  | 0 => []
  | n + 1 => monthStart lo :: monthStartsFromTo (lo + 1) n

/-- Index of the first month start not before `a`. -/
def msLo (a : Date) : Nat := if a.d = 1 then monthIdx a else monthIdx a + 1

/-- Model of the external `pd.date_range(start=a, end=b, freq="MS")`: every
month-start date `d` with `a ≤ d ≤ b`, ascending. -/
def dateRangeMS (a b : Date) : List Date :=
  monthStartsFromTo (msLo a) (monthIdx b + 1 - msLo a)

/-- Collapse runs of equal adjacent elements (what `.unique()` does to a
sorted array). -/
def dedupAdjacent : List Date → List Date
  | [] => []
  | [a] => [a]
  | a :: b :: rest =>
    if a = b then dedupAdjacent (b :: rest) else a :: dedupAdjacent (b :: rest)

/-- `pd.to_datetime(times.dropna()).sort_values().unique()`. -/
def sortedUnique (times : List (Option Date)) : List Date :=
  dedupAdjacent (sortRows dateLe (times.filterMap id))

/-- `_monthly_frequency_ok`. -/
def monthly_frequency_ok (times : List (Option Date)) : Bool :=
  let t := sortedUnique times
  if t.length < 3 then true
  else
    match t with
    | [] => true
    | a :: rest =>
      decide (dateRangeMS a ((a :: rest).getLast (by simp)) = a :: rest)

/-- Spec wording for one group: every element is a month start and
successive elements are consecutive months. -/
def isConsecMonthStarts : List Date → Bool
  | [] => true
  | [a] => a.d == 1
  | a :: b :: rest =>
    a.d == 1 && monthIdx b == monthIdx a + 1 && isConsecMonthStarts (b :: rest)

/-- Modelled from the spec words for `monthly_frequency_no_gaps`: the
distinct sorted non-null times form an unbroken run of consecutive month
starts from the minimum to the maximum; groups with fewer than three
distinct times pass trivially. -/
def specMonthlyOk (times : List (Option Date)) : Bool :=
  let t := sortedUnique times
  decide (t.length < 3) || isConsecMonthStarts t

/-- The recorded detail of each rule outcome. -/
inductive CheckInfo
  | missingCols (cols : List String)
  | nullCounts (counts : List (String × Nat))
  | dupRows (n : Nat) (keyCols : List String)
  | nonPositive (n : Nat)
  | unparseableTimeRows (n : Nat)
  | freqDetails (failing : List (String × String × String))
deriving DecidableEq, Repr

/-- One named rule outcome. -/
structure Check where
  name : String
  passed : Bool
  info : CheckInfo
deriving DecidableEq, Repr

/-- The quality report (the summary block carries no rule outcome and no
claim mentions it, so it is omitted). -/
structure Report where
  passed : Bool
  checks : List Check
deriving DecidableEq, Repr

def requiredCols : List String := ["time", "geo", "coicop", "unit", "value"]

/-- Grouping keys of `df.groupby(["geo", "coicop", "unit"])` (rows with a
null key are dropped by `groupby`). -/
def groupKeys (df : DF) : List (String × String × String) :=
  (df.rows.filterMap (fun r =>
    match r.geo, r.coicop, r.unit with
    | some g, some c, some u => some (g, c, u)
    | _, _, _ => none)).dedup

/-- The time column of one group. -/
def groupTimes (df : DF) (k : String × String × String) : List (Option Date) :=
  (df.rows.filter (fun r =>
    r.geo == some k.1 && r.coicop == some k.2.1 && r.unit == some k.2.2)).map
    (fun r => r.time)

/-- `run_checks`: the fixed rule battery.  Each evaluated rule appends its
outcome and ANDs its condition into the running `passed` flag, exactly as
the source does; rules 2–6 are guarded by the same column-presence
conditions as the source. -/
def run_checks (df : DF) : Report :=
  let missing := requiredCols.filter (fun c => !(df.hasCol c))
  let checks1 := [Check.mk "schema_required_columns" missing.isEmpty (.missingCols missing)]
  let passed1 := true && missing.isEmpty
  let nc := requiredCols.map (fun c => (c, df.nullCount c))
  let checks2 :=
    if missing.isEmpty then
      checks1 ++ [Check.mk "non_null_required_columns"
        (nc.all (fun p => p.2 == 0)) (.nullCounts nc)]
    else checks1
  let passed2 :=
    if missing.isEmpty then passed1 && nc.all (fun p => p.2 == 0) else passed1
  let keyCols := ["time", "geo", "coicop", "unit"].filter (fun c => df.hasCol c)
  let dupCount := df.rows.length - ((df.rows.map (rowKey keyCols)).dedup).length
  let checks3 :=
    if keyCols ≠ [] then
      checks2 ++ [Check.mk "no_duplicate_keys" (dupCount == 0) (.dupRows dupCount keyCols)]
    else checks2
  let passed3 := if keyCols ≠ [] then passed2 && (dupCount == 0) else passed2
  let nonPos := df.rows.countP (fun r =>
    match r.value with
    | some v => decide (v ≤ 0)
    | none => false)
  let checks4 :=
    if df.hasValue then
      checks3 ++ [Check.mk "value_positive" (nonPos == 0) (.nonPositive nonPos)]
    else checks3
  let passed4 := if df.hasValue then passed3 && (nonPos == 0) else passed3
  let timeNa := df.rows.countP (fun r => r.time.isNone)
  let checks5 :=
    if df.hasTime then
      checks4 ++ [Check.mk "time_parseable" (timeNa == 0) (.unparseableTimeRows timeNa)]
    else checks4
  let passed5 := if df.hasTime then passed4 && (timeNa == 0) else passed4
  let haveKeys := df.hasTime && df.hasGeo && df.hasCoicop && df.hasUnit
  let freqPass := (groupKeys df).all (fun k => monthly_frequency_ok (groupTimes df k))
  let failing := (groupKeys df).filter (fun k => !(monthly_frequency_ok (groupTimes df k)))
  let checks6 :=
    if haveKeys then
      checks5 ++ [Check.mk "monthly_frequency_no_gaps" freqPass (.freqDetails failing)]
    else checks5
  let passed6 := if haveKeys then passed5 && freqPass else passed5
  ⟨passed6, checks6⟩

/-- What the validator writes to object storage. -/
inductive QBlob
  | report (processedBlob : String) (r : Report)
  | pointer (latestReport : String)
deriving DecidableEq, Repr

/-- The report key `<dir>ts=<ts>_<PASS|FAIL>.json`. -/
def reportBlobKey (qdir ts : String) (passed : Bool) : String :=
  qdir ++ "ts=" ++ ts ++ "_" ++ (if passed then "PASS" else "FAIL") ++ ".json"

/-- The validator `main` from `run_checks` on: the two blob writes it
performs, in order — the report itself, then the `LATEST.json` pointer,
written unconditionally. -/
def qualityMainWrites (df : DF) (qdir ts processedBlob : String) :
    List (String × QBlob) :=
  let report := run_checks df
  let rk := reportBlobKey qdir ts report.passed
  [(rk, .report processedBlob report), (qdir ++ "LATEST.json", .pointer rk)]

/-! ## Loader (`src/db/load_hicp_to_sql.py`) -/

/-- One row of `dbo.fact_hicp`. -/
structure FactRow where
  time : Date
  geo : String
  coicop : String
  unit : String
  value : Option ℚ
  processed_at_utc : String
  raw_blob : String
deriving DecidableEq, Repr

/-- The loader's view of object storage: the content of `LATEST.json`, the
report blobs (their recorded `processed_blob`), and the processed tables. -/
structure LoaderStore where
  latestReport : String
  reports : List (String × String)
  parquets : List (String × List FactRow)

/-- The exceptions the loader can raise. -/
inductive LoadErr
  | reportNotPassing (reportBlob : String)
  | blobMissing (key : String)
  | emptyBatch
deriving DecidableEq, Repr

/-- Python substring test `pat in s`. -/
def strContains (s pat : String) : Bool :=
  s.data.tails.any (fun t => pat.data.isPrefixOf t)

/-- Python `s.endswith(pat)`; used to state what a report key encodes. -/
def strEndsWith (s pat : String) : Bool := pat.data.isSuffixOf s.data

/-- `get_latest_pass_processed_blob`: dereference the pointer and require
the key name to carry the `_PASS.json` marker before reading the report. -/
def get_latest_pass_processed_blob (st : LoaderStore) : Except LoadErr String :=
  let reportBlob := st.latestReport
  if !(strContains reportBlob "_PASS.json") then
    .error (.reportNotPassing reportBlob)
  else
    match st.reports.lookup reportBlob with
    | some processed => .ok processed
    | none => .error (.blobMissing reportBlob)

/-- Relational state: whether `dbo.fact_hicp` exists, and its rows. -/
structure SqlDb where
  tableExists : Bool
  rows : List FactRow
deriving DecidableEq, Repr

/-- `ensure_table`: idempotent create-if-absent. -/
def ensure_table (db : SqlDb) : SqlDb := { db with tableExists := true }

/-- `delete_existing_series`. -/
def delete_existing_series (db : SqlDb) (geo coicop unitCode : String) : SqlDb :=
  { db with rows := db.rows.filter (fun r =>
      !(r.geo == geo && r.coicop == coicop && r.unit == unitCode)) }

/-- `df.to_sql(..., if_exists="append")`. -/
def insertRows (db : SqlDb) (new : List FactRow) : SqlDb :=
  { db with rows := db.rows ++ new }

/-- Loader `main`: the relational state after the run together with the
outcome; on an exception the state is returned exactly as it was at the
moment the exception was raised. -/
def loadMain (st : LoaderStore) (db : SqlDb) : SqlDb × Except LoadErr Unit :=
  match get_latest_pass_processed_blob st with
  | .error e => (db, .error e)
  | .ok processedBlob =>
    match st.parquets.lookup processedBlob with
    | none => (db, .error (.blobMissing processedBlob))
    | some tbl =>
      match tbl with
      | [] => (db, .error .emptyBatch)
      | r0 :: _ =>
        let db1 := ensure_table db
        let db2 := delete_existing_series db1 r0.geo r0.coicop r0.unit
        (insertRows db2 tbl, .ok ())

/-! ## Concrete instances from the spec's examples -/

/-- The spec's sparse example: value map `{"0": 100.0}` on one `time`
dimension of declared size 2. -/
def sparsePayload : Payload :=
  { dimension := some [("time", .dict [("2024M01", 0), ("2024M02", 1)])]
  , id := some ["time"]
  , size := some [2]
  , value := some (.dict [("0", 100)]) }

/-- The spec's round-trip example: 2 time periods × 1 geo × 1 category ×
1 unit, dense values [100.0, 101.5]. -/
def roundtripPayload : Payload :=
  { dimension := some
      [ ("geo", .dict [("LU", 0)])
      , ("coicop", .dict [("CP00", 0)])
      , ("unit", .dict [("I15", 0)])
      , ("time", .dict [("2024M01", 0), ("2024M02", 1)]) ]
  , id := some ["geo", "coicop", "unit", "time"]
  , size := some [1, 1, 1, 2]
  , value := some (.list [some 100, some (203/2)]) }

/-- The tidy table the round-trip example must produce: two rows sorted by
time, carrying 100.0 and 101.5. -/
def roundtripDF : DataFrame :=
  { cols := ["time", "geo", "coicop", "unit", "value"]
  , rows :=
    [ [ ("time", .date (some ⟨2024, 1, 1⟩)), ("geo", .str "LU")
      , ("coicop", .str "CP00"), ("unit", .str "I15"), ("value", .num (some 100)) ]
    , [ ("time", .date (some ⟨2024, 2, 1⟩)), ("geo", .str "LU")
      , ("coicop", .str "CP00"), ("unit", .str "I15"), ("value", .num (some (203/2))) ] ] }

/-- The round-trip example with a flat array of the wrong length (3 values
against a declared product of 2). -/
def badLenPayload : Payload :=
  { roundtripPayload with value := some (.list [some 100, some (203/2), some 7]) }

/-- The enumeration rows of the round-trip example before time parsing. -/
def roundtripRawRows : List (List (String × Cell)) :=
  [ [ ("geo", .str "LU"), ("coicop", .str "CP00"), ("unit", .str "I15")
    , ("time", .str "2024M01"), ("value", .num (some 100)) ]
  , [ ("geo", .str "LU"), ("coicop", .str "CP00"), ("unit", .str "I15")
    , ("time", .str "2024M02"), ("value", .num (some (203/2))) ] ]

/-- The same rows after the time column is parsed. -/
def roundtripParsedRows : List (List (String × Cell)) :=
  [ [ ("geo", .str "LU"), ("coicop", .str "CP00"), ("unit", .str "I15")
    , ("time", .date (some ⟨2024, 1, 1⟩)), ("value", .num (some 100)) ]
  , [ ("geo", .str "LU"), ("coicop", .str "CP00"), ("unit", .str "I15")
    , ("time", .date (some ⟨2024, 2, 1⟩)), ("value", .num (some (203/2))) ] ]

/-- A payload carrying `dimension` and `value` but no `id` key. -/
def noIdPayload : Payload :=
  { dimension := some [], id := none, size := some [], value := some (.list []) }

/-- The quality-check example table with values [100.0, 0.0, -5.0, null]. -/
def valuesDF : DF :=
  { rows :=
    [ ⟨some ⟨2024, 1, 1⟩, some "LU", some "CP00", some "I15", some 100⟩
    , ⟨some ⟨2024, 2, 1⟩, some "LU", some "CP00", some "I15", some 0⟩
    , ⟨some ⟨2024, 3, 1⟩, some "LU", some "CP00", some "I15", some (-5)⟩
    , ⟨some ⟨2024, 4, 1⟩, some "LU", some "CP00", some "I15", none⟩ ]
  , hasTime := true, hasGeo := true, hasCoicop := true
  , hasUnit := true, hasValue := true }

/-! ## General lemmas about the embedding -/

@[simp] theorem ebind_ok (a : α) (f : α → Except ε β) :
    (Except.ok a >>= f) = f a := rfl

@[simp] theorem ebind_error (e : ε) (f : α → Except ε β) :
    ((Except.error e : Except ε α) >>= f) = .error e := rfl

@[simp] theorem epure_ok (a : α) : (pure a : Except ε α) = .ok a := rfl

theorem mapE_ok_length {f : α → Except ε β} :
    ∀ {l : List α} {out : List β}, mapE f l = .ok out → out.length = l.length := by
  intro l
  induction l with
  | nil =>
    intro out h
    simp only [mapE] at h
    cases h
    rfl
  | cons a as ih =>
    intro out h
    simp only [mapE] at h
    cases hfa : f a with
    | error e => rw [hfa] at h; simp at h
    | ok b =>
      rw [hfa] at h
      cases hrest : mapE f as with
      | error e => rw [hrest] at h; simp at h
      | ok bs =>
        rw [hrest] at h
        simp only [ebind_ok, epure_ok, Except.ok.injEq] at h
        subst h
        simp [ih hrest]

theorem length_insertSorted (le : α → α → Bool) (a : α) :
    ∀ l : List α, (insertSorted le a l).length = l.length + 1 := by
  intro l
  induction l with
  | nil => rfl
  | cons b bs ih =>
    simp only [insertSorted]
    by_cases h : le a b = true
    · simp [h]
    · simp [h, ih]

theorem length_sortRows (le : α → α → Bool) :
    ∀ l : List α, (sortRows le l).length = l.length := by
  intro l
  induction l with
  | nil => rfl
  | cons a as ih => simp [sortRows, length_insertSorted, ih]

theorem mem_insertSorted (le : α → α → Bool) (a x : α) :
    ∀ l : List α, x ∈ insertSorted le a l ↔ x = a ∨ x ∈ l := by
  intro l
  induction l with
  | nil => simp [insertSorted]
  | cons b bs ih =>
    simp only [insertSorted]
    by_cases h : le a b = true
    · rw [if_pos h]
      simp [List.mem_cons]
    · rw [if_neg h]
      simp [List.mem_cons, ih]
      tauto

theorem mem_sortRows (le : α → α → Bool) (x : α) :
    ∀ l : List α, x ∈ sortRows le l ↔ x ∈ l := by
  intro l
  induction l with
  | nil => simp [sortRows]
  | cons a as ih =>
    simp [sortRows, mem_insertSorted, ih]

theorem flatten_map_length (K : List (List α)) : ∀ l : List α,
    ((l.map (fun x => K.map (fun r => x :: r))).flatten).length
      = l.length * K.length := by
  intro l
  induction l with
  | nil => simp
  | cons x xs ih => simp [ih, Nat.succ_mul, Nat.add_comm]

theorem cartProd_length : ∀ ls : List (List α),
    (cartProd ls).length = (ls.map List.length).prod := by
  intro ls
  induction ls with
  | nil => rfl
  | cons l rest ih =>
    rw [cartProd, flatten_map_length, ih, List.map_cons, List.prod_cons]

theorem foldl_mul (l : List Nat) : ∀ a : Nat,
    l.foldl (fun x s => x * s) a = a * l.prod := by
  induction l with
  | nil => intro a; simp
  | cons s rest ih =>
    intro a
    simp only [List.foldl_cons, List.prod_cons, ih, Nat.mul_assoc]

@[simp] theorem optGet_some (a : α) (k : String) : optGet (some a) k = .ok a := rfl

@[simp] theorem optGet_none (k : String) :
    optGet (none : Option α) k = .error (.keyError k) := rfl

theorem find_map_overwrite (k : String) (v : Cell) :
    ∀ r : List (String × Cell), r.any (fun kc => kc.1 == k) = true →
      (r.map (fun kc => if kc.1 == k then (k, v) else kc)).find?
        (fun kc => kc.1 == k) = some (k, v) := by
  intro r
  induction r with
  | nil => intro h; simp at h
  | cons kc rest ih =>
    intro h
    cases hb : (kc.1 == k) with
    | true => simp [List.find?, hb]
    | false =>
      rw [List.map_cons, if_neg (by simp [hb]), List.find?_cons]
      simp only [hb]
      refine ih ?_
      simpa [List.any_cons, hb] using h

theorem find_append_right (p : α → Bool) :
    ∀ l1 l2 : List α, l1.find? p = none → (l1 ++ l2).find? p = l2.find? p := by
  intro l1 l2
  induction l1 with
  | nil => intro _; rfl
  | cons a t ih =>
    intro h
    rw [List.cons_append]
    rw [List.find?_cons] at h ⊢
    split at h
    · exact Option.noConfusion h
    · rename_i heq
      try simp only [heq]
      exact ih h

theorem getCell_dictSet_self (r : List (String × Cell)) (k : String) (v : Cell) :
    getCell (dictSet r k v) k = v := by
  unfold getCell dictSet
  by_cases h : r.any (fun kc => kc.1 == k) = true
  · rw [if_pos h, find_map_overwrite k v r h]
  · rw [if_neg h]
    have hnone : r.find? (fun kc => kc.1 == k) = none := by
      rw [List.find?_eq_none]
      intro x hx hpx
      exact h (List.any_eq_true.mpr ⟨x, hx, hpx⟩)
    rw [find_append_right _ r [(k, v)] hnone]
    simp [List.find?]

theorem getCell_mkRow_value (dimOrder combo : List String) (v : Option ℚ) :
    getCell (mkRow dimOrder combo v) "value" = .num v :=
  getCell_dictSet_self _ _ _

theorem buildRowsAux_length {dimOrder : List String} {values : JVal} :
    ∀ (combos : List (List String)) (i : Nat)
      (rows : List (List (String × Cell))),
      buildRowsAux dimOrder values i combos = .ok rows →
      rows.length = combos.length := by
  intro combos
  induction combos with
  | nil =>
    intro i rows h
    simp only [buildRowsAux] at h
    cases h
    rfl
  | cons combo rest ih =>
    intro i rows h
    simp only [buildRowsAux] at h
    cases hv : getValue values i with
    | error e => rw [hv] at h; simp at h
    | ok v =>
      rw [hv] at h
      cases hr : buildRowsAux dimOrder values (i + 1) rest with
      | error e => rw [hr] at h; simp at h
      | ok rs =>
        rw [hr] at h
        simp only [ebind_ok, epure_ok, Except.ok.injEq] at h
        subst h
        simp [ih (i + 1) rs hr]

theorem buildRowsAux_dense_values {dimOrder : List String} {vs : List (Option ℚ)} :
    ∀ (combos : List (List String)) (i : Nat)
      (rows : List (List (String × Cell))),
      buildRowsAux dimOrder (.list vs) i combos = .ok rows →
      rows.map (fun r => getCell r "value")
        = ((vs.drop i).take combos.length).map Cell.num := by
  intro combos
  induction combos with
  | nil =>
    intro i rows h
    simp only [buildRowsAux] at h
    cases h
    simp
  | cons combo rest ih =>
    intro i rows h
    simp only [buildRowsAux] at h
    cases hv : getValue (.list vs) i with
    | error e => rw [hv] at h; simp at h
    | ok v =>
      rw [hv] at h
      cases hr : buildRowsAux dimOrder (.list vs) (i + 1) rest with
      | error e => rw [hr] at h; simp at h
      | ok rs =>
        rw [hr] at h
        simp only [ebind_ok, epure_ok, Except.ok.injEq] at h
        subst h
        have hvi : vs[i]? = some v := by
          simp only [getValue] at hv
          cases hg : vs[i]? with
          | none => rw [hg] at hv; cases hv
          | some w => rw [hg] at hv; cases hv; rfl
        obtain ⟨hlt, hget⟩ := List.getElem?_eq_some_iff.mp hvi
        rw [List.map_cons, getCell_mkRow_value, ih (i + 1) rs hr,
          List.drop_eq_getElem_cons hlt]
        simp [List.take_succ_cons, hget]

/-! ## C1 -/

/-- C1: the spec says a sparse cube with value map `{"0": 100.0}` and
implied total size 2 yields a 2-row table with a null in row 1 and no
error; the code instead measures `len(value)` as the dict's key count (1),
fails the flat-length check and raises the length-mismatch error, so the
documented sparse default-to-null path is never reached. -/
theorem c1_sparse_short_value_map_raises_mismatch :
    jsonstat_to_dataframe sparsePayload =
      .error (.valueLengthMismatch 1 2) := rfl

/-! ## C2 -/

/-- C2 counterexample: the claim says `"2024M13"` fails the monthly pattern
and yields null; in fact `13` matches the two-digit group, the code calls
`pd.Timestamp(2024, 13, 1)`, and that raises instead of returning null. -/
theorem c2_counterexample_2024M13_raises :
    parse_time_code (some "2024M13") =
        .error (.valueError "month must be in 1..12") ∧
      ∀ o : Option Date, parse_time_code (some "2024M13") ≠ .ok o := by
  refine ⟨rfl, ?_⟩
  intro o h
  rw [show parse_time_code (some "2024M13") =
      .error (.valueError "month must be in 1..12") from rfl] at h
  exact Except.noConfusion h

/-- C2 (amended): an input of four digits, `M` and a two-digit month in
`01..12` (within the pandas timestamp range) maps to the first day of that
month; `"2024M01"` gives 2024-01-01; but the parser is not total:
`"2024M13"` matches the monthly pattern and raises a month-out-of-range
error rather than yielding null; every input that fails the pattern and
also fails general date parsing yields null, as does a null input. -/
theorem c2_time_parser_amended :
    (∀ (s : String) (y m : Nat), matchYYYYMmm s = some (y, m) →
      1 ≤ m → m ≤ 12 → pdTimestampOk y m = true →
      parse_time_code (some s) = .ok (some ⟨y, m, 1⟩)) ∧
    (∀ s : String, matchYYYYMmm s = none → pdToDatetime s = none →
      parse_time_code (some s) = .ok none) ∧
    parse_time_code (some "2024M01") = .ok (some ⟨2024, 1, 1⟩) ∧
    parse_time_code (some "2024M13") =
      .error (.valueError "month must be in 1..12") ∧
    parse_time_code (some "not a date") = .ok none ∧
    parse_time_code none = .ok none := by
  refine ⟨?_, ?_, rfl, rfl, rfl, rfl⟩
  · intro s y m hmatch h1 h2 hok
    simp only [parse_time_code, hmatch]
    rw [if_neg (by omega), if_pos hok]
  · intro s hmatch hgen
    simp only [parse_time_code, hmatch, hgen]

/-- C2 witness: the general first-of-month clause applies at `"2025M12"`. -/
theorem c2_time_parser_amended_witness :
    parse_time_code (some "2025M12") = .ok (some ⟨2025, 12, 1⟩) :=
  c2_time_parser_amended.1 "2025M12" 2025 12 rfl (by decide) (by decide) rfl

/-! ## C5 -/

/-- C5: when the report key the `LATEST.json` pointer references does not
carry the `_PASS.json` marker, the loader raises the not-passing error
before creating an engine, and the relational state is returned exactly as
it was: no table creation, no delete, no insert. -/
theorem c5_loader_fail_report_no_writes :
    ∀ (st : LoaderStore) (db : SqlDb),
      strContains st.latestReport "_PASS.json" = false →
      loadMain st db = (db, .error (.reportNotPassing st.latestReport)) := by
  intro st db h
  simp [loadMain, get_latest_pass_processed_blob, h]

/-- C5 witness: a concrete store whose latest report is marked FAIL. -/
theorem c5_loader_fail_report_no_writes_witness :
    loadMain ⟨"metadata/quality/ts=1_FAIL.json", [], []⟩ ⟨false, []⟩ =
      (⟨false, []⟩, .error (.reportNotPassing "metadata/quality/ts=1_FAIL.json")) :=
  c5_loader_fail_report_no_writes ⟨"metadata/quality/ts=1_FAIL.json", [], []⟩
    ⟨false, []⟩ rfl

/-! ## C9 -/

theorem strEndsWith_append (a b : String) : strEndsWith (a ++ b) b = true := by
  rw [strEndsWith, String.data_append, List.isSuffixOf_iff_suffix]
  exact List.suffix_append a.data b.data

/-- C9: after every validator run — pass or fail — the two writes are, in
order, the report under its timestamped key and the `LATEST.json` pointer
referencing exactly that key; the key name ends in `_PASS.json` or
`_FAIL.json` according to the report's `passed` flag. -/
theorem c9_latest_pointer_overwritten_unconditionally :
    ∀ (df : DF) (qdir ts processedBlob : String),
      qualityMainWrites df qdir ts processedBlob =
        [ (reportBlobKey qdir ts (run_checks df).passed,
            .report processedBlob (run_checks df))
        , (qdir ++ "LATEST.json",
            .pointer (reportBlobKey qdir ts (run_checks df).passed)) ] ∧
      strEndsWith (reportBlobKey qdir ts (run_checks df).passed)
        (if (run_checks df).passed then "_PASS.json" else "_FAIL.json") = true := by
  intro df qdir ts processedBlob
  refine ⟨rfl, ?_⟩
  cases h : (run_checks df).passed with
  | false =>
    rw [if_neg (by decide)]
    rw [show reportBlobKey qdir ts false =
        (qdir ++ "ts=" ++ ts) ++ "_FAIL.json" from ?_]
    · exact strEndsWith_append _ _
    · simp [reportBlobKey, String.append_assoc]
  | true =>
    simp only [if_pos rfl]
    rw [show reportBlobKey qdir ts true =
        (qdir ++ "ts=" ++ ts) ++ "_PASS.json" from ?_]
    · exact strEndsWith_append _ _
    · simp [reportBlobKey, String.append_assoc]

/-! ## C10 -/

/-- C10: a payload carrying `dimension` and `value` but missing `id` or
`size` passes the malformed-payload guard and then fails with an uncaught
`KeyError` on the unguarded `payload["id"]` / `payload["size"]` reads — and
in particular never with the documented malformed-payload error. -/
theorem c10_missing_id_or_size_is_keyerror :
    ∀ p : Payload, p.dimension.isSome = true → p.value.isSome = true →
      (p.id = none ∨ p.size = none) →
      jsonstat_to_dataframe p =
        .error (.keyError (if p.id = none then "id" else "size")) ∧
      ∀ ks, jsonstat_to_dataframe p ≠ .error (.malformedPayload ks) := by
  intro p hdim hval hor
  obtain ⟨dims, hdims⟩ := Option.isSome_iff_exists.mp hdim
  obtain ⟨vals, hvals⟩ := Option.isSome_iff_exists.mp hval
  have hmain : jsonstat_to_dataframe p =
      .error (.keyError (if p.id = none then "id" else "size")) := by
    cases hid : p.id with
    | none =>
      simp [jsonstat_to_dataframe, hdims, hvals, hid, optGet]
    | some dimOrder =>
      cases hsize : p.size with
      | none =>
        simp [jsonstat_to_dataframe, hdims, hvals, hid, hsize, optGet]
      | some sizes =>
        rcases hor with h | h
        · rw [hid] at h; exact (Option.some_ne_none _ h).elim
        · rw [hsize] at h; exact (Option.some_ne_none _ h).elim
  refine ⟨hmain, ?_⟩
  intro ks h
  rw [hmain] at h
  simp at h

/-- C10 witness: the concrete payload with `dimension` and `value` but no
`id` raises `KeyError("id")`. -/
theorem c10_missing_id_or_size_is_keyerror_witness :
    jsonstat_to_dataframe noIdPayload = .error (.keyError "id") ∧
      ∀ ks, jsonstat_to_dataframe noIdPayload ≠ .error (.malformedPayload ks) := by
  have h := c10_missing_id_or_size_is_keyerror noIdPayload rfl rfl (Or.inl rfl)
  simpa using h

/-! ## C3 -/

/-- C3: for a well-formed dense cube (structural keys present, per-dimension
codes extracted, code counts matching the declared sizes, flat array length
equal to the product of sizes, time column parseable) the transform succeeds
and its output row count is exactly the product of the declared dimension
sizes; and whenever the measured flat length disagrees with that product the
transform fails with the length-mismatch error naming both lengths — the
failure happens before any row is built, so there is no partial output. -/
theorem c3_dense_row_count_and_length_guard :
    (∀ (p : Payload) (dims : List (String × CatIndex)) (dimOrder : List String)
        (sizes : List Nat) (codes : List (List String)) (vs : List (Option ℚ))
        (raw rows2 : List (List (String × Cell))),
      p.dimension = some dims → p.value = some (.list vs) →
      p.id = some dimOrder → p.size = some sizes →
      mapE (lookupCodes dims) dimOrder = .ok codes →
      codes.map List.length = sizes →
      vs.length = sizes.foldl (fun a s => a * s) 1 →
      buildRows dimOrder codes (.list vs) = .ok raw →
      mapE parseTimeRow raw = .ok rows2 →
      ∃ df, jsonstat_to_dataframe p = .ok df ∧
        df.rows.length = sizes.foldl (fun a s => a * s) 1) ∧
    (∀ (p : Payload) (dims : List (String × CatIndex)) (dimOrder : List String)
        (sizes : List Nat) (codes : List (List String)) (values : JVal) (n : Nat),
      p.dimension = some dims → p.value = some values →
      p.id = some dimOrder → p.size = some sizes →
      mapE (lookupCodes dims) dimOrder = .ok codes →
      jvalLen values = .ok n →
      n ≠ sizes.foldl (fun a s => a * s) 1 →
      jsonstat_to_dataframe p =
        .error (.valueLengthMismatch n (sizes.foldl (fun a s => a * s) 1))) := by
  constructor
  · intro p dims dimOrder sizes codes vs raw rows2
      hdim hval hid hsize hcodes hmatch hlen hbuild hparse
    simp only [jsonstat_to_dataframe, hdim, hval, hid, hsize, optGet_some,
      ebind_ok, hcodes, Option.isSome_some, and_self, if_true, jvalLen]
    rw [if_neg (fun hne => hne hlen), hbuild, ebind_ok, hparse, ebind_ok]
    refine ⟨_, rfl, ?_⟩
    simp only [length_sortRows, List.length_map]
    rw [mapE_ok_length hparse, buildRowsAux_length (cartProd codes) 0 raw hbuild,
      cartProd_length, hmatch, foldl_mul]
    simp
  · intro p dims dimOrder sizes codes values n
      hdim hval hid hsize hcodes hjl hne
    simp only [jsonstat_to_dataframe, hdim, hval, hid, hsize, optGet_some,
      ebind_ok, hcodes, hjl, Option.isSome_some, and_self, if_true]
    rw [if_pos hne]

/-- C3 witness: the round-trip cube has 2 = 1·1·1·2 rows; the same cube with
3 flat values fails with the mismatch error naming 3 and 2. -/
theorem c3_dense_row_count_and_length_guard_witness :
    (∃ df, jsonstat_to_dataframe roundtripPayload = .ok df ∧
      df.rows.length = [1, 1, 1, 2].foldl (fun a s => a * s) 1) ∧
    jsonstat_to_dataframe badLenPayload =
      .error (.valueLengthMismatch 3 ([1, 1, 1, 2].foldl (fun a s => a * s) 1)) := by
  constructor
  · exact c3_dense_row_count_and_length_guard.1 roundtripPayload _ _ _
      [["LU"], ["CP00"], ["I15"], ["2024M01", "2024M02"]] _
      roundtripRawRows roundtripParsedRows rfl rfl rfl rfl rfl rfl rfl rfl rfl
  · exact c3_dense_row_count_and_length_guard.2 badLenPayload _ _ _
      [["LU"], ["CP00"], ["I15"], ["2024M01", "2024M02"]] _ 3
      rfl rfl rfl rfl rfl rfl (by decide)

/-! ## C4 -/

/-- C4: the enumeration of the Cartesian product of per-dimension codes, in
declared dimension order, assigns flat value index `i` to product position
`i` — for a dense array of the right length the enumerated rows carry
exactly the flat values in order; and the round-trip example (2 time periods
× 1 geo × 1 category × 1 unit, dense values [100.0, 101.5]) transforms to
exactly the expected 2-row table sorted by (geo, category, time). -/
theorem c4_product_value_alignment_roundtrip :
    (∀ (dimOrder : List String) (codes : List (List String))
        (vs : List (Option ℚ)) (raw : List (List (String × Cell))),
      vs.length = (cartProd codes).length →
      buildRows dimOrder codes (.list vs) = .ok raw →
      raw.map (fun r => getCell r "value") = vs.map Cell.num) ∧
    jsonstat_to_dataframe roundtripPayload = .ok roundtripDF := by
  refine ⟨?_, rfl⟩
  intro dimOrder codes vs raw hlen hbuild
  have h := buildRowsAux_dense_values (cartProd codes) 0 raw hbuild
  rw [h, List.drop_zero, ← hlen, List.take_length]

/-- C4 witness: the alignment clause applied to the round-trip cube. -/
theorem c4_product_value_alignment_roundtrip_witness :
    roundtripRawRows.map (fun r => getCell r "value")
      = ([some 100, some (203/2)] : List (Option ℚ)).map Cell.num :=
  c4_product_value_alignment_roundtrip.1 ["geo", "coicop", "unit", "time"]
    [["LU"], ["CP00"], ["I15"], ["2024M01", "2024M02"]]
    [some 100, some (203/2)] roundtripRawRows rfl rfl

/-! ## C6 -/

theorem monthIdx_monthStart (i : Nat) : monthIdx (monthStart i) = i := by
  simp only [monthIdx, monthStart]
  omega

theorem monthStart_monthIdx (a : Date) (hm1 : 1 ≤ a.m) (hm2 : a.m ≤ 12)
    (hd : a.d = 1) : monthStart (monthIdx a) = a := by
  obtain ⟨y, m, d⟩ := a
  simp only at hm1 hm2 hd
  subst hd
  simp only [monthIdx, monthStart, Date.mk.injEq]
  refine ⟨by omega, by omega, trivial⟩

theorem isConsec_msFromTo : ∀ (n lo : Nat),
    isConsecMonthStarts (monthStartsFromTo lo n) = true := by
  intro n
  induction n with
  | zero => intro lo; rfl
  | succ k ih =>
    intro lo
    cases k with
    | zero => simp [monthStartsFromTo, isConsecMonthStarts, monthStart]
    | succ j =>
      show isConsecMonthStarts
        (monthStart lo :: monthStart (lo + 1) :: monthStartsFromTo (lo + 2) j) = true
      simp only [isConsecMonthStarts, Bool.and_eq_true, beq_iff_eq]
      refine ⟨⟨rfl, ?_⟩, ?_⟩
      · rw [monthIdx_monthStart, monthIdx_monthStart]
      · exact ih (lo + 1)

theorem consec_head_day : ∀ (a : Date) (rest : List Date),
    isConsecMonthStarts (a :: rest) = true → a.d = 1 := by
  intro a rest h
  cases rest with
  | nil => simpa [isConsecMonthStarts] using h
  | cons b t =>
    simp only [isConsecMonthStarts, Bool.and_eq_true, beq_iff_eq] at h
    exact h.1.1

theorem consec_eq_msFromTo : ∀ (rest : List Date) (a : Date),
    validDate a → (∀ x ∈ rest, validDate x) →
    isConsecMonthStarts (a :: rest) = true →
    a :: rest = monthStartsFromTo (monthIdx a) (rest.length + 1) ∧
      ∀ hne : a :: rest ≠ [],
        monthIdx ((a :: rest).getLast hne) = monthIdx a + rest.length := by
  intro rest
  induction rest with
  | nil =>
    intro a hva _ h
    have hd : a.d = 1 := by simpa [isConsecMonthStarts] using h
    constructor
    · simp [monthStartsFromTo, monthStart_monthIdx a hva.1 hva.2.1 hd]
    · intro hne; simp
  | cons b t ih =>
    intro a hva hvr h
    simp only [isConsecMonthStarts, Bool.and_eq_true, beq_iff_eq] at h
    obtain ⟨⟨hd, hib⟩, hcons⟩ := h
    have hvb : validDate b := hvr b (by simp)
    have hvt : ∀ x ∈ t, validDate x := fun x hx => hvr x (by simp [hx])
    obtain ⟨heq, hlast⟩ := ih b hvb hvt hcons
    constructor
    · show a :: b :: t
        = monthStart (monthIdx a) :: monthStartsFromTo (monthIdx a + 1) (t.length + 1)
      rw [monthStart_monthIdx a hva.1 hva.2.1 hd, ← hib, ← heq]
    · intro hne
      have h2 := hlast (List.cons_ne_nil b t)
      rw [show (a :: b :: t).getLast hne
          = (b :: t).getLast (List.cons_ne_nil b t) from rfl, h2, hib]
      simp only [List.length_cons]
      omega

theorem mem_dedupAdjacent (x : Date) :
    ∀ l : List Date, x ∈ dedupAdjacent l → x ∈ l := by
  intro l
  induction l with
  | nil => intro h; simp [dedupAdjacent] at h
  | cons a rest ih =>
    cases rest with
    | nil => intro h; simpa [dedupAdjacent] using h
    | cons b t =>
      intro h
      simp only [dedupAdjacent] at h
      by_cases hab : a = b
      · rw [if_pos hab] at h
        exact List.mem_cons_of_mem a (ih h)
      · rw [if_neg hab] at h
        rcases List.mem_cons.mp h with h1 | h1
        · exact h1 ▸ List.mem_cons_self a (b :: t)
        · exact List.mem_cons_of_mem a (ih h1)

theorem mem_sortedUnique (times : List (Option Date)) (x : Date) :
    x ∈ sortedUnique times → some x ∈ times := by
  intro h
  have h1 := mem_dedupAdjacent x _ h
  rw [mem_sortRows] at h1
  obtain ⟨a, ha, hfa⟩ := List.mem_filterMap.mp h1
  cases a with
  | none => cases hfa
  | some y =>
    cases hfa
    exact ha

/-- C6: for one group's time column, the code's monthly-frequency rule
agrees exactly with the spec's wording — it passes iff the distinct sorted
non-null times form consecutive month starts from the group minimum to the
group maximum, groups with fewer than three distinct times passing
trivially; and on the spec's two examples the rule fails for
[2024-01, 2024-02, 2024-04] (gap at March) and passes for
[2024-01, 2024-02]. -/
theorem c6_monthly_frequency_rule_iff :
    (∀ times : List (Option Date), (∀ d : Date, some d ∈ times → validDate d) →
      monthly_frequency_ok times = specMonthlyOk times) ∧
    monthly_frequency_ok
      [some ⟨2024, 1, 1⟩, some ⟨2024, 2, 1⟩, some ⟨2024, 4, 1⟩] = false ∧
    monthly_frequency_ok [some ⟨2024, 1, 1⟩, some ⟨2024, 2, 1⟩] = true := by
  refine ⟨?_, rfl, rfl⟩
  intro times hvalid
  have hvt : ∀ x ∈ sortedUnique times, validDate x := fun x hx =>
    hvalid x (mem_sortedUnique times x hx)
  simp only [monthly_frequency_ok, specMonthlyOk]
  by_cases hlen : (sortedUnique times).length < 3
  · rw [if_pos hlen]
    simp [hlen]
  · rw [if_neg hlen]
    have hd3 : decide ((sortedUnique times).length < 3) = false := by
      simpa using hlen
    rw [hd3, Bool.false_or]
    cases hst : sortedUnique times with
    | nil => rw [hst] at hlen; simp at hlen
    | cons a rest =>
      rw [hst] at hvt
      show decide (dateRangeMS a ((a :: rest).getLast (by simp)) = a :: rest)
        = isConsecMonthStarts (a :: rest)
      cases hb : isConsecMonthStarts (a :: rest) with
      | true =>
        have hva : validDate a := hvt a (by simp)
        have hvr : ∀ x ∈ rest, validDate x := fun x hx => hvt x (by simp [hx])
        obtain ⟨heq, hlast⟩ := consec_eq_msFromTo rest a hva hvr hb
        have hda : a.d = 1 := consec_head_day a rest hb
        rw [decide_eq_true_eq]
        rw [dateRangeMS, msLo, if_pos hda, hlast _]
        rw [show monthIdx a + rest.length + 1 - monthIdx a = rest.length + 1 by omega]
        exact heq.symm
      | false =>
        rw [decide_eq_false_iff_not]
        intro hcontra
        have hc : isConsecMonthStarts (a :: rest) = true := by
          rw [← hcontra]
          exact isConsec_msFromTo _ _
        rw [hc] at hb
        cases hb

/-- C6 witness: the rule equivalence instantiated on a concrete group. -/
theorem c6_monthly_frequency_rule_iff_witness :
    monthly_frequency_ok
        [some ⟨2024, 1, 1⟩, some ⟨2024, 2, 1⟩, some ⟨2024, 4, 1⟩]
      = specMonthlyOk
        [some ⟨2024, 1, 1⟩, some ⟨2024, 2, 1⟩, some ⟨2024, 4, 1⟩] := by
  refine c6_monthly_frequency_rule_iff.1 _ ?_
  intro d hd
  simp only [List.mem_cons, List.not_mem_nil, or_false, Option.some.injEq] at hd
  rcases hd with h | h | h <;> subst h <;> decide

/-! ## C7 -/

theorem countP_value_filterMap : ∀ rows : List ObsRow,
    (rows.countP (fun r =>
      match r.value with
      | some v => decide (v ≤ 0)
      | none => false))
      = ((rows.map ObsRow.value).filterMap id).countP (fun v => decide (v ≤ 0)) := by
  intro rows
  induction rows with
  | nil => rfl
  | cons r rest ih =>
    rw [List.countP_cons]
    cases hv : r.value with
    | none => simp [hv, ih]
    | some v => simp [hv, ih, List.countP_cons, Nat.add_comm]

theorem mem_ite_append {C : α} {l l2 : List α} (b : Prop) [Decidable b]
    (h : C ∈ l) : C ∈ (if b then l ++ l2 else l) := by
  split
  · exact List.mem_append_left _ h
  · exact h

/-- C7: when the value column is present, the battery records a
`value_positive` outcome whose violation count is exactly the number of
non-null values that are ≤ 0 (nulls are never counted) and which passes iff
that count is zero; on values [100.0, 0.0, -5.0, null] it records exactly
2 violations and fails. -/
theorem c7_value_positive_rule :
    (∀ df : DF, df.hasValue = true →
      ∃ n, Check.mk "value_positive" (n == 0) (.nonPositive n)
          ∈ (run_checks df).checks ∧
        n = ((df.rows.map ObsRow.value).filterMap id).countP
          (fun v => decide (v ≤ 0))) ∧
    Check.mk "value_positive" false (.nonPositive 2)
      ∈ (run_checks valuesDF).checks := by
  constructor
  · intro df hval
    refine ⟨df.rows.countP (fun r =>
      match r.value with
      | some v => decide (v ≤ 0)
      | none => false), ?_, countP_value_filterMap df.rows⟩
    simp only [run_checks, hval, if_true]
    apply mem_ite_append
    apply mem_ite_append
    exact List.mem_append_right _ (by simp)
  · decide

/-- C7 witness: the rule clause instantiated at the example table. -/
theorem c7_value_positive_rule_witness :
    ∃ n, Check.mk "value_positive" (n == 0) (.nonPositive n)
        ∈ (run_checks valuesDF).checks ∧
      n = ((valuesDF.rows.map ObsRow.value).filterMap id).countP
        (fun v => decide (v ≤ 0)) :=
  c7_value_positive_rule.1 valuesDF rfl

/-! ## C8 -/

/-- C8: the report's top-level `passed` flag is exactly the conjunction of
the `passed` flags of the rules that were evaluated; the first recorded rule
is always the schema rule; and the `non_null_required_columns` rule appears
in the battery exactly when no required column is missing — that is, exactly
when the schema rule passed. -/
theorem c8_passed_is_conjunction :
    ∀ df : DF,
      ((run_checks df).passed
        = ((run_checks df).checks.map Check.passed).all (fun b => b)) ∧
      ((run_checks df).checks.head?.map Check.passed
        = some (requiredCols.filter (fun c => !(df.hasCol c))).isEmpty) ∧
      (((run_checks df).checks.any
          (fun c => c.name == "non_null_required_columns"))
        = (requiredCols.filter (fun c => !(df.hasCol c))).isEmpty) := by
  intro df
  simp only [run_checks]
  split_ifs <;>
    simp_all [List.all_append, List.map_append, List.any_append, Bool.and_assoc]

end Pipeline
